import Mathlib

/-!
Verification of the blood-test analyzer's biomarker extraction pipeline
(`src/app/api/analyze/route.ts`, main version with `originalOrder`, plus the
legacy near-duplicate under `blood-test-analyzer/`).

The pipeline is pure string/regex processing, so it is embedded shallowly:
a small backtracking regular-expression engine reproduces the JavaScript
regex semantics (leftmost match, greedy/lazy quantifiers, capture groups,
the `i` flag, `exec` loops with `lastIndex`), numbers are embedded as `Rat`
(every numeric literal in scope is a finite decimal, which doubles represent
exactly), and `Date` arithmetic is embedded with a proleptic-Gregorian
civil-date model; the process-local timezone is modelled as UTC, so
"local midnight" renders as `T00:00:00.000Z`.
-/

set_option maxRecDepth 20000

/-! ### ASCII character helpers (JS `toLowerCase`, `\d`, `\s`, `\w`) -/

def lowerA (c : Char) : Char :=
  if 'A' ≤ c ∧ c ≤ 'Z' then Char.ofNat (c.toNat + 32) else c

def upperA (c : Char) : Char :=
  if 'a' ≤ c ∧ c ≤ 'z' then Char.ofNat (c.toNat - 32) else c

def isDigitC (c : Char) : Bool :=
  '0' ≤ c && c ≤ '9'

/-- The characters JS `\s` matches, restricted to ASCII (the repository's
inputs and every witness text below are ASCII). -/
def isSpaceC (c : Char) : Bool :=
  c = ' ' || c = '\t' || c = '\n' || c = '\r' || c = '\x0b' || c = '\x0c'

def isWordC (c : Char) : Bool :=
  ('a' ≤ c && c ≤ 'z') || ('A' ≤ c && c ≤ 'Z') || isDigitC c || c = '_'

/-! ### A JS-style backtracking regex engine

Only the constructs used by the route's regexes are represented.  All
quantifiers in those regexes range over single-character classes, so `rep`
quantifies a character class directly; `opt`/`alt`/`seq`/`grp` cover the
rest.  Alternatives are tried left to right, greedy quantifiers longest
first, lazy quantifiers shortest first — exactly the ECMAScript
backtracking order. -/

inductive CCl where
  | chr (c : Char)
  | rng (lo hi : Char)
  | digit
  | space
  | word
deriving DecidableEq, Repr

def CCl.matchesOne (ci : Bool) : CCl → Char → Bool
  | .chr d, c => c = d || (ci && lowerA c = lowerA d)
  | .rng lo hi, c =>
      (lo ≤ c && c ≤ hi) ||
      (ci && ((lo ≤ lowerA c && lowerA c ≤ hi) || (lo ≤ upperA c && upperA c ≤ hi)))
  | .digit, c => isDigitC c
  | .space, c => isSpaceC c
  | .word, c => isWordC c

def matchCls (ci : Bool) (neg : Bool) (items : List CCl) (c : Char) : Bool :=
  let m := items.any (fun it => it.matchesOne ci c)
  if neg then !m else m

inductive RE where
  | eps
  | lit (s : List Char)
  | cls (neg : Bool) (items : List CCl)
  | seq (a b : RE)
  | alt (a b : RE)
  | opt (greedy : Bool) (a : RE)
  | rep (lazy : Bool) (lo : Nat) (hi : Option Nat) (neg : Bool) (items : List CCl)
  | grp (idx : Nat) (a : RE)
  | bos
  | eos
deriving Repr

/-- Match a literal character sequence, returning the remaining input. -/
def litMatch (ci : Bool) : List Char → List Char → Option (List Char)
  | [], s => some s
  | _ :: _, [] => none
  | d :: ds, c :: cs =>
      if c = d || (ci && lowerA c = lowerA d) then litMatch ci ds cs else none

/-- Length of the maximal run of characters matching a class. -/
def runLen (ci neg : Bool) (items : List CCl) : List Char → Nat
  | [] => 0
  | c :: cs => if matchCls ci neg items c then runLen ci neg items cs + 1 else 0

def tryLens (k : Nat → Option (Nat × List (Nat × List Char))) :
    List Nat → Option (Nat × List (Nat × List Char))
  | [] => none
  | n :: ns =>
      match k n with
      | some r => some r
      | none => tryLens k ns

/-- CPS backtracking matcher.  `s` is the remaining input, `p` the absolute
position (used by `bos` and for capture extents), `g` the capture list
(most recent first), `k` the continuation. -/
def mtch (ci : Bool) : RE → List Char → Nat → List (Nat × List Char) →
    (List Char → Nat → List (Nat × List Char) → Option (Nat × List (Nat × List Char))) →
    Option (Nat × List (Nat × List Char))
  | .eps, s, p, g, k => k s p g
  | .lit l, s, p, g, k =>
      match litMatch ci l s with
      | some s2 => k s2 (p + l.length) g
      | none => none
  | .cls neg items, s, p, g, k =>
      match s with
      | [] => none
      | c :: s2 => if matchCls ci neg items c then k s2 (p + 1) g else none
  | .seq a b, s, p, g, k => mtch ci a s p g (fun s2 p2 g2 => mtch ci b s2 p2 g2 k)
  | .alt a b, s, p, g, k =>
      match mtch ci a s p g k with
      | some r => some r
      | none => mtch ci b s p g k
  | .opt greedy a, s, p, g, k =>
      if greedy then
        match mtch ci a s p g k with
        | some r => some r
        | none => k s p g
      else
        match k s p g with
        | some r => some r
        | none => mtch ci a s p g k
  | .rep lz lo hi neg items, s, p, g, k =>
      let run := runLen ci neg items s
      let maxN := match hi with | some h => min run h | none => run
      if lo > maxN then none
      else
        let lens := if lz then List.range' lo (maxN - lo + 1)
                    else (List.range' lo (maxN - lo + 1)).reverse
        tryLens (fun n => k (s.drop n) (p + n) g) lens
  | .grp i a, s, p, g, k =>
      mtch ci a s p g (fun s2 p2 g2 => k s2 p2 ((i, s.take (p2 - p)) :: g2))
  | .bos, s, p, g, k => if p = 0 then k s p g else none
  | .eos, s, p, g, k => if s.isEmpty then k s p g else none

structure MatchRes where
  mstart : Nat
  mend : Nat
  caps : List (Nat × List Char)
deriving Repr

/-- First match at position `p` or later (`s` is the suffix starting at `p`).
This is the ECMAScript leftmost-match rule. -/
def findFrom (ci : Bool) (re : RE) : List Char → Nat → Option MatchRes
  | s, p =>
      match mtch ci re s p [] (fun _ p2 g => some (p2, g)) with
      | some (e, g) => some ⟨p, e, g⟩
      | none =>
          match s with
          | [] => none
          | _ :: s2 => findFrom ci re s2 (p + 1)

/-- Slice of the input between absolute positions `a` (inclusive) and `b`. -/
def sliceL (inp : List Char) (a b : Nat) : List Char :=
  (inp.drop a).take (b - a)

def capGet (g : List (Nat × List Char)) (i : Nat) : Option (List Char) :=
  match g.find? (fun x => x.1 = i) with
  | some x => some x.2
  | none => none

/-- All matches of a `/g` regex, mirroring the `exec` loop with `lastIndex`
(advancing by one on an empty match). -/
def execAllAux (ci : Bool) (re : RE) (inp : List Char) :
    Nat → Nat → List MatchRes
  | 0, _ => []
  | fuel + 1, start =>
      match findFrom ci re (inp.drop start) start with
      | none => []
      | some m => m :: execAllAux ci re inp fuel (max m.mend (m.mstart + 1))

def execAll (ci : Bool) (re : RE) (inp : List Char) : List MatchRes :=
  execAllAux ci re inp (inp.length + 1) 0

/-! Constructors for assembling the route's regexes. -/

def reSeq : List RE → RE
  | [] => .eps
  | [r] => r
  | r :: rs => .seq r (reSeq rs)

def reAlt : List RE → RE
  | [] => .eps
  | [r] => r
  | r :: rs => .alt r (reAlt rs)

def lit (s : String) : RE := .lit s.data

def starG (items : List CCl) : RE := .rep false 0 none false items

def starLz (items : List CCl) : RE := .rep true 0 none false items

def plusG (items : List CCl) : RE := .rep false 1 none false items

def repB (lo hi : Nat) (items : List CCl) : RE := .rep false lo (some hi) false items

def optG (r : RE) : RE := .opt true r

/-! ### JS string helpers -/

def trimJs (s : List Char) : List Char :=
  ((s.dropWhile isSpaceC).reverse.dropWhile isSpaceC).reverse

def chStr (s : List Char) : String := String.mk s

def lowerize (s : List Char) : List Char := s.map lowerA

/-- `needle.isPrefixOf hay`, case sensitive. -/
def headSeg : List Char → List Char → Bool
  | [], _ => true
  | _ :: _, [] => false
  | d :: ds, c :: cs => if c = d then headSeg ds cs else false

/-- JS `hay.includes(needle)` (case sensitive). -/
def containsSub (hay needle : List Char) : Bool :=
  match hay with
  | [] => needle.isEmpty
  | _ :: rest => headSeg needle hay || containsSub rest needle

def containsAnySub (hay : List Char) (needles : List String) : Bool :=
  needles.any (fun n => containsSub hay n.data)

def endsWithSub (hay needle : List Char) : Bool :=
  headSeg needle.reverse hay.reverse

/-- JS `s.split(sep)` for a single separator character. -/
def splitOnChar (sep : Char) (s : List Char) : List (List Char) :=
  match s with
  | [] => [[]]
  | c :: rest =>
      let r := splitOnChar sep rest
      if c = sep then [] :: r
      else
        match r with
        | [] => [[c]]
        | x :: xs => (c :: x) :: xs

/-- JS `s.split(/[...]/)` for a class of single separator characters. -/
def splitOnAny (seps : List Char) (s : List Char) : List (List Char) :=
  match s with
  | [] => [[]]
  | c :: rest =>
      let r := splitOnAny seps rest
      if seps.contains c then [] :: r
      else
        match r with
        | [] => [[c]]
        | x :: xs => (c :: x) :: xs

/-! ### JS number parsing and printing (`parseFloat`, `parseInt`,
`String(number)`), on `Rat` -/

def digitsVal (s : List Char) : Nat :=
  s.foldl (fun acc c => acc * 10 + (c.toNat - '0'.toNat)) 0

def splitDigits (s : List Char) : List Char × List Char :=
  (s.takeWhile isDigitC, s.dropWhile isDigitC)

/-- JS `parseFloat`: leading whitespace, optional sign, decimal digits with
an optional fraction.  `none` models `NaN`.  (No exponent support: every
call site feeds it digit/dot/angle-bracket text captured by the regexes.) -/
def parseFloatQ (s : List Char) : Option Rat :=
  let s := s.dropWhile isSpaceC
  let neg : Bool := match s with | '-' :: _ => true | _ => false
  let s := match s with | '-' :: t => t | '+' :: t => t | _ => s
  let (ip, s1) := splitDigits s
  let fp : List Char := match s1 with | '.' :: t => (splitDigits t).1 | _ => []
  if ip.isEmpty && fp.isEmpty then none
  else
    let q : Rat := mkRat (digitsVal ip * 10 ^ fp.length + digitsVal fp) (10 ^ fp.length)
    some (if neg then -q else q)

/-- JS `parseInt` (base 10): leading whitespace, optional sign, leading
digits.  `none` models `NaN`. -/
def parseIntJs (s : List Char) : Option Int :=
  let s := s.dropWhile isSpaceC
  let sign : Int := match s with | '-' :: _ => -1 | _ => 1
  let s := match s with | '-' :: t => t | '+' :: t => t | _ => s
  let (ip, _) := splitDigits s
  if ip.isEmpty then none else some (sign * (digitsVal ip : Int))

def natDigits (n : Nat) : List Char :=
  (Nat.toDigits 10 n)

def findDecExp (d : Nat) : Nat → Nat → Option Nat
  | _, 0 => none
  | k, fuel + 1 => if 10 ^ k % d = 0 then some k else findDecExp d (k + 1) fuel

/-- JS `String(number)` for the finite decimals that occur in the pipeline
(shortest decimal form, e.g. `85 ↦ "85"`, `4.5 ↦ "4.5"`). -/
def ratToJsStr (q : Rat) : String :=
  let sign := if q.num < 0 then "-" else ""
  let a := q.num.natAbs
  match findDecExp q.den 0 40 with
  | some 0 => sign ++ chStr (natDigits a)
  | some k =>
      let n := a * (10 ^ k / q.den)
      let ds := natDigits n
      let ds := if ds.length ≤ k then List.replicate (k + 1 - ds.length) '0' ++ ds else ds
      sign ++ chStr (ds.take (ds.length - k)) ++ "." ++ chStr (ds.drop (ds.length - k))
  | none => sign ++ chStr (natDigits a)

/-! ### JS `Date` model (proleptic Gregorian, timezone fixed to UTC) -/

structure CivilDate where
  year : Int
  month : Int
  day : Int
deriving DecidableEq, Repr

/-- Days since 1970-01-01 of a civil date (Howard Hinnant's algorithm). -/
def daysFromCivil (y m d : Int) : Int :=
  let y := y - (if m ≤ 2 then 1 else 0)
  let era := Int.fdiv y 400
  let yoe := y - era * 400
  let mp := (m + 9).emod 12
  let doy := Int.fdiv (153 * mp + 2) 5 + d - 1
  let doe := yoe * 365 + Int.fdiv yoe 4 - Int.fdiv yoe 100 + doy
  era * 146097 + doe - 719468

/-- Civil date of a day count since 1970-01-01. -/
def civilFromDays (z0 : Int) : CivilDate :=
  let z := z0 + 719468
  let era := Int.fdiv z 146097
  let doe := z - era * 146097
  let yoe := Int.fdiv (doe - Int.fdiv doe 1460 + Int.fdiv doe 36524 - Int.fdiv doe 146096) 365
  let y := yoe + era * 400
  let doy := doe - (365 * yoe + Int.fdiv yoe 4 - Int.fdiv yoe 100)
  let mp := Int.fdiv (5 * doy + 2) 153
  let d := doy - Int.fdiv (153 * mp + 2) 5 + 1
  let m := mp + (if mp < 10 then 3 else -9)
  ⟨y + (if m ≤ 2 then 1 else 0), m, d⟩

/-- `new Date(year, month, day)` (month 0-based, out-of-range components
normalized by carrying; years 0–99 mapped to 1900–1999), at local midnight
with the local timezone modelled as UTC. -/
def jsDateLocal (y m d : Int) : CivilDate :=
  let y := if 0 ≤ y ∧ y ≤ 99 then y + 1900 else y
  let ym := y * 12 + m
  let yy := Int.fdiv ym 12
  let mm := Int.emod ym 12
  civilFromDays (daysFromCivil yy (mm + 1) 1 + d - 1)

def isLeap (y : Int) : Bool :=
  (y.emod 4 = 0 && y.emod 100 ≠ 0) || y.emod 400 = 0

def daysInMonth (y m : Int) : Int :=
  if m = 2 then (if isLeap y then 29 else 28)
  else if m = 4 ∨ m = 6 ∨ m = 9 ∨ m = 11 then 30
  else 31

def padNat (w : Nat) (n : Nat) : String :=
  let ds := natDigits n
  chStr (List.replicate (w - ds.length) '0' ++ ds)

/-- `date.toISOString()` of a civil date at UTC midnight. -/
def isoOfCivil (c : CivilDate) : String :=
  padNat 4 c.year.toNat ++ "-" ++ padNat 2 c.month.toNat ++ "-" ++
    padNat 2 c.day.toNat ++ "T00:00:00.000Z"

/-! ### Date extractor (`extractTestDate`)

The function and its regexes are identical in the two route versions. -/

def sepDateCls : List CCl := [ .chr '/', .chr '-', .chr '.']

/-- `Collection Date, Time\s*\n\s*(\d{2}-[A-Za-z]{3}-\d{4})`, flag `i`. -/
def collectionDatePattern : RE :=
  reSeq [ lit "Collection Date, Time", starG [ .space], .cls false [ .chr '\n'],
    starG [ .space],
    .grp 1 (reSeq [ repB 2 2 [ .digit], lit "-",
      repB 3 3 [ .rng 'A' 'Z', .rng 'a' 'z'], lit "-", repB 4 4 [ .digit]]) ]

def monthMap : List (String × Int) :=
  [ ("Jan", 0), ("Feb", 1), ("Mar", 2), ("Apr", 3), ("May", 4), ("Jun", 5),
    ("Jul", 6), ("Aug", 7), ("Sep", 8), ("Oct", 9), ("Nov", 10), ("Dec", 11) ]

/-- The `DD-MMM-YYYY` parse in the collection-date branch: split on `-`,
`parseInt` the day and year, look the month up in the (case-sensitive)
abbreviation table, and return the ISO form of `new Date(year, month, day)`.
`none` means the branch falls through to the generic patterns. -/
def parseCollectionDate (dateStr : List Char) : Option String :=
  let ds := trimJs dateStr
  let parts := splitOnChar '-' ds
  if parts.length = 3 then
    match parseIntJs (parts.getD 0 []),
        (monthMap.find? (fun p => p.1.data = parts.getD 1 [])).map Prod.snd,
        parseIntJs (parts.getD 2 []) with
    | some day, some month, some year =>
        some (isoOfCivil (jsDateLocal year month day))
    | _, _, _ => none
  else none

/-- Group 1 of the first match of the collection-date pattern
(`collectionMatch && collectionMatch[1]`, the empty capture being falsy). -/
def collectionCapture (t : List Char) : Option (List Char) :=
  match findFrom true collectionDatePattern t 0 with
  | some m =>
      match capGet m.caps 1 with
      | some s => if s.isEmpty then none else some s
      | none => none
  | none => none

/-- `(?:test|collection|sample|report|drawn|collected|date)` -/
def dateKeywordRE : RE :=
  reAlt [ lit "test", lit "collection", lit "sample", lit "report",
    lit "drawn", lit "collected", lit "date"]

/-- `(?:date|time|on|at)?` -/
def dateLabelOptRE : RE :=
  optG (reAlt [ lit "date", lit "time", lit "on", lit "at"])

def nonAlnumCls : List CCl := [ .rng 'a' 'z', .rng 'A' 'Z', .rng '0' '9']

/-- `[^a-zA-Z0-9]` -/
def nonAlnum1 : RE := .cls true nonAlnumCls

/-- `[^a-zA-Z0-9]*?` -/
def nonAlnumStarLz : RE := .rep true 0 none true nonAlnumCls

/-- `\d{1,2}[\/\-\.]\d{1,2}[\/\-\.]\d{2,4}` -/
def numericDateRE : RE :=
  reSeq [ repB 1 2 [ .digit], .cls false sepDateCls, repB 1 2 [ .digit],
    .cls false sepDateCls, repB 2 4 [ .digit]]

/-- `(?:\s*(?:at)?\s*\d{1,2}:\d{2}(?:\s*[AP]M)?)?` -/
def timeSuffixOptRE : RE :=
  optG (reSeq [ starG [ .space], optG (lit "at"), starG [ .space],
    repB 1 2 [ .digit], lit ":", repB 2 2 [ .digit],
    optG (reSeq [ starG [ .space], .cls false [ .chr 'A', .chr 'P'], lit "M"])])

def monthAbbrevRE : RE :=
  reAlt [ lit "Jan", lit "Feb", lit "Mar", lit "Apr", lit "May", lit "Jun",
    lit "Jul", lit "Aug", lit "Sep", lit "Oct", lit "Nov", lit "Dec"]

/-- `\d{4}-\d{2}-\d{2}` -/
def isoDateRE : RE :=
  reSeq [ repB 4 4 [ .digit], lit "-", repB 2 2 [ .digit], lit "-", repB 2 2 [ .digit]]

/-- The `datePatterns` array: each entry is (ignore-case flag, regex,
number of capture groups). -/
def datePatterns : List (Bool × RE × Nat) :=
  [ (true,
      reSeq [ dateKeywordRE, nonAlnum1, dateLabelOptRE, nonAlnumStarLz,
        .grp 1 (reSeq [ numericDateRE, timeSuffixOptRE])],
      1),
    (true,
      reSeq [ dateKeywordRE, nonAlnum1, dateLabelOptRE, nonAlnumStarLz,
        reAlt [
          .grp 1 (reSeq [ repB 1 2 [ .digit], plusG [ .space], monthAbbrevRE,
            starG [ .rng 'a' 'z'], plusG [ .space], repB 2 4 [ .digit]]),
          .grp 2 (reSeq [ monthAbbrevRE, starG [ .rng 'a' 'z'], plusG [ .space],
            repB 1 2 [ .digit],
            optG (reAlt [ lit "st", lit "nd", lit "rd", lit "th"]),
            optG (.cls false [ .chr ',']), plusG [ .space], repB 2 4 [ .digit]])]],
      2),
    (true,
      reSeq [ dateKeywordRE, nonAlnum1, dateLabelOptRE, nonAlnumStarLz,
        .grp 1 isoDateRE],
      1),
    (false,
      reSeq [ reAlt [ .bos, .cls false [ .space]], .grp 1 numericDateRE,
        reAlt [ .cls false [ .space], .eos]],
      1),
    (false,
      reSeq [ reAlt [ .bos, .cls false [ .space]], .grp 1 isoDateRE,
        reAlt [ .cls false [ .space], .eos]],
      1),
    (true,
      reSeq [ reAlt [ reSeq [ lit "report", plusG [ .space], lit "generated"],
          lit "printed"],
        optG (reSeq [ plusG [ .space], lit "on"]), lit ":", starG [ .space],
        .grp 1 numericDateRE],
      1),
    (true,
      reSeq [ reAlt [ lit "ordered", lit "completed"],
        optG (reSeq [ plusG [ .space], lit "on"]), lit ":", starG [ .space],
        .grp 1 numericDateRE],
      1) ]

/-- `match.find((group, index) => index > 0 && group)`: the first
non-`undefined`, non-empty capture, scanning group indices upward. -/
def firstGroupAux (caps : List (Nat × List Char)) : List Nat → Option (List Char)
  | [] => none
  | i :: is =>
      match capGet caps i with
      | some s => if s.isEmpty then firstGroupAux caps is else some s
      | none => firstGroupAux caps is

def firstGroup (caps : List (Nat × List Char)) (n : Nat) : Option (List Char) :=
  firstGroupAux caps (List.range' 1 n)

/-- `/^\d{4}-\d{2}-\d{2}$/` -/
def isoShape (s : List Char) : Bool :=
  match s with
  | [a, b, c, d, h1, e, f, h2, g, h] =>
      isDigitC a && isDigitC b && isDigitC c && isDigitC d && h1 = '-' &&
        isDigitC e && isDigitC f && h2 = '-' && isDigitC g && isDigitC h
  | _ => false

/-- `/^\d{1,2}[\/\-\.]\d{1,2}[\/\-\.]\d{2,4}$/` -/
def numShape (s : List Char) : Bool :=
  let isSep := fun c => c = '/' || c = '-' || c = '.'
  let (d1, s1) := splitDigits s
  match s1 with
  | c1 :: s2 =>
      if isSep c1 then
        let (d2, s3) := splitDigits s2
        match s3 with
        | c2 :: s4 =>
            if isSep c2 then
              let (d3, s5) := splitDigits s4
              decide (1 ≤ d1.length ∧ d1.length ≤ 2 ∧ 1 ≤ d2.length ∧
                d2.length ≤ 2 ∧ 2 ≤ d3.length ∧ d3.length ≤ 4) && s5.isEmpty
            else false
        | [] => false
      else false
  | [] => false

/-- `new Date("YYYY-MM-DD")` for a date-only ISO string: UTC midnight, or
Invalid Date (`none`) when the components are out of range. -/
def jsDateFromIsoStr (s : List Char) : Option CivilDate :=
  let parts := splitOnChar '-' s
  match parseIntJs (parts.getD 0 []), parseIntJs (parts.getD 1 []),
      parseIntJs (parts.getD 2 []) with
  | some y, some m, some d =>
      if 1 ≤ m ∧ m ≤ 12 ∧ 1 ≤ d ∧ d ≤ daysInMonth y m then some ⟨y, m, d⟩ else none
  | _, _, _ => none

def monthFullNames : List (String × Int) :=
  [ ("january", 0), ("february", 1), ("march", 2), ("april", 3), ("may", 4),
    ("june", 5), ("july", 6), ("august", 7), ("september", 8), ("october", 9),
    ("november", 10), ("december", 11) ]

def monthOfToken (tok : List Char) : Option Int :=
  let l := lowerize tok
  (monthFullNames.find? (fun p =>
    3 ≤ l.length && headSeg l p.1.data)).map Prod.snd

def allDigits (s : List Char) : Bool :=
  !s.isEmpty && s.all isDigitC

/-- `new Date(dateStr)` on the free-form month-name strings captured by the
second date pattern (`15 Jan 2023`, `January 15, 2023`).  Modelled on the
engine's behaviour: tokens split on spaces and commas, the month token must
be a prefix of a full month name (at least 3 letters), the day must be in
range for the month, two-digit years resolve to 19xx/20xx, anything else —
including ordinal suffixes such as `15th` — is an Invalid Date (`none`).
The result is local midnight (timezone modelled as UTC). -/
def jsDateFreeform (s : List Char) : Option CivilDate :=
  let toks := (splitOnAny [ ' ', ',', '\t', '\n', '\r'] s).filter
    (fun t => !t.isEmpty)
  let fixYear := fun (y : Int) =>
    if 0 ≤ y ∧ y < 50 then y + 2000 else if 50 ≤ y ∧ y < 100 then y + 1900 else y
  let build := fun (mi : Int) (dTok yTok : List Char) =>
    if allDigits dTok && allDigits yTok && dTok.length ≤ 2 then
      match parseIntJs dTok, parseIntJs yTok with
      | some d, some y =>
          let y := fixYear y
          if 1 ≤ d ∧ d ≤ daysInMonth y (mi + 1) then some ⟨y, mi + 1, d⟩ else none
      | _, _ => none
    else none
  match toks with
  | [t1, t2, t3] =>
      match monthOfToken t1 with
      | some mi => build mi t2 t3
      | none =>
          match monthOfToken t2 with
          | some mi => build mi t1 t3
          | none => none
  | _ => none

/-- The parse-and-validate step applied to an extracted date group: shape
dispatch (ISO / numeric `M/D/Y` with US month-first convention and 19xx/20xx
two-digit years / free-form), then the `year > 1900` validity filter.
`none` means the loop continues with the next pattern. -/
def parseDateGroup (dg : List Char) : Option String :=
  let ds := trimJs dg
  let parsed : Option CivilDate :=
    if isoShape ds then jsDateFromIsoStr ds
    else if numShape ds then
      let parts := splitOnAny [ '/', '-', '.'] ds
      if parts.length = 3 then
        match parseIntJs (parts.getD 2 []), parseIntJs (parts.getD 0 []),
            parseIntJs (parts.getD 1 []) with
        | some y0, some m1, some d =>
            let y := if y0 < 100 then (if y0 < 50 then y0 + 2000 else y0 + 1900) else y0
            some (jsDateLocal y (m1 - 1) d)
        | _, _, _ => none
      else none
    else jsDateFreeform ds
  match parsed with
  | some c => if c.year > 1900 then some (isoOfCivil c) else none
  | none => none

/-- One iteration of the `datePatterns` loop body. -/
def tryOnePattern (t : List Char) (p : Bool × RE × Nat) : Option String :=
  match findFrom p.1 p.2.1 t 0 with
  | none => none
  | some m =>
      match firstGroup m.caps p.2.2 with
      | none => none
      | some dg => parseDateGroup dg

/-- The full `datePatterns` loop: first pattern whose match parses to an
accepted date. -/
def tryDatePatterns (t : List Char) : Option String :=
  datePatterns.foldl
    (fun acc p => match acc with | some r => some r | none => tryOnePattern t p)
    none

/-- `new Date('2023-06-15T00:00:00.000Z').toISOString()`. -/
def fallbackDateISO : String := isoOfCivil ⟨2023, 6, 15⟩

/-- `extractTestDate`: the collection-date branch, then the generic pattern
loop, then the fixed fallback date.  The declared return type in the source
is `string | null`, but the fallback branch returns the fixed date instead
of `null`. -/
def extractTestDate (t : List Char) : Option String :=
  match (collectionCapture t).bind parseCollectionDate with
  | some iso => some iso
  | none =>
      match tryDatePatterns t with
      | some iso => some iso
      | none => some fallbackDateISO

/-! ### Biomarker data model and the static dictionary (main route) -/

structure RRange where
  min : Rat
  max : Rat
deriving DecidableEq, Repr

structure Biomarker where
  value : Rat
  unit : Option String
  referenceRange : Option RRange
  orderIndex : Option Nat
deriving DecidableEq, Repr

structure BiomarkerDefinition where
  units : String
  range : RRange
deriving DecidableEq, Repr

/-- `BIOMARKER_DEFINITIONS` of the main route, in source (insertion) order. -/
def BIOMARKER_DEFINITIONS : List (String × BiomarkerDefinition) :=
  [ ("Hemoglobin", ⟨ "g/dL", ⟨12, 17⟩⟩),
    ("Hematocrit", ⟨ "%", ⟨36, 52⟩⟩),
    ("Mean Cell Hemoglobin", ⟨ "pg", ⟨27, 33⟩⟩),
    ("Mean Cell Hemoglobin Concentration", ⟨ "g/dL", ⟨32, 36⟩⟩),
    ("Mean Cell Volume", ⟨ "fL", ⟨80, 100⟩⟩),
    ("Red Blood Cells", ⟨ "x10^12/L", ⟨4.2, 5.8⟩⟩),
    ("Basophils", ⟨ "x10^9/L", ⟨0, 0.2⟩⟩),
    ("Eosinophils", ⟨ "x10^9/L", ⟨0, 0.5⟩⟩),
    ("Lymphocytes", ⟨ "x10^9/L", ⟨1.0, 4.0⟩⟩),
    ("Monocytes", ⟨ "x10^9/L", ⟨0.2, 0.8⟩⟩),
    ("Neutrophils", ⟨ "x10^9/L", ⟨2.0, 7.0⟩⟩),
    ("White Blood Cells", ⟨ "x10^9/L", ⟨4.0, 11.0⟩⟩),
    ("Platelets", ⟨ "x10^9/L", ⟨150, 450⟩⟩),
    ("Ferritin", ⟨ "ng/mL", ⟨20, 250⟩⟩),
    ("Total Cholesterol", ⟨ "mg/dL", ⟨125, 200⟩⟩),
    ("LDL Cholesterol", ⟨ "mg/dL", ⟨0, 100⟩⟩),
    ("HDL Cholesterol", ⟨ "mg/dL", ⟨40, 60⟩⟩),
    ("Cholesterol", ⟨ "mg/dL", ⟨125, 200⟩⟩),
    ("HDL", ⟨ "mg/dL", ⟨40, 60⟩⟩),
    ("LDL", ⟨ "mg/dL", ⟨0, 100⟩⟩),
    ("Triglycerides", ⟨ "mg/dL", ⟨0, 150⟩⟩),
    ("High Sensitivity C-Reactive Protein (hsCRP)", ⟨ "mg/L", ⟨0, 3⟩⟩),
    ("Creatine Kinase (CK-NAC)", ⟨ "U/L", ⟨30, 200⟩⟩),
    ("Glucose", ⟨ "mg/dL", ⟨70, 100⟩⟩),
    ("HbA1c", ⟨ "%", ⟨4, 5.7⟩⟩),
    ("Albumin", ⟨ "g/dL", ⟨3.5, 5.0⟩⟩),
    ("Calcium (adjusted)", ⟨ "mg/dL", ⟨8.5, 10.5⟩⟩),
    ("Creatinine", ⟨ "mg/dL", ⟨0.6, 1.2⟩⟩),
    ("Cystatin C", ⟨ "mg/L", ⟨0.5, 1.0⟩⟩),
    ("Estimated Glomerular Filtration Rate (eGFR)", ⟨ "mL/min/1.73m²", ⟨90, 120⟩⟩),
    ("Magnesium", ⟨ "mg/dL", ⟨1.7, 2.3⟩⟩),
    ("PotassiumCT", ⟨ "mmol/L", ⟨3.5, 5.2⟩⟩),
    ("SodiumCT", ⟨ "mmol/L", ⟨135, 145⟩⟩),
    ("Urea (BUN)", ⟨ "mg/dL", ⟨7, 20⟩⟩),
    ("Alanine Aminotransferase (ALT)", ⟨ "U/L", ⟨7, 55⟩⟩),
    ("Alkaline Phosphatase (ALP)", ⟨ "U/L", ⟨44, 147⟩⟩),
    ("Aspartate Aminotransferase (AST/GOT)", ⟨ "U/L", ⟨8, 48⟩⟩),
    ("Copper", ⟨ "µg/dL", ⟨70, 140⟩⟩),
    ("Gamma-Glutamyltransferase (GGT)", ⟨ "U/L", ⟨8, 61⟩⟩),
    ("Total Bilirubin", ⟨ "mg/dL", ⟨0.1, 1.2⟩⟩),
    ("Folic acid/Folate", ⟨ "ng/mL", ⟨3, 17⟩⟩),
    ("Vitamin C deficiencyRH", ⟨ "mg/L", ⟨0.4, 2.0⟩⟩),
    ("Vitamin B12", ⟨ "pg/mL", ⟨200, 900⟩⟩),
    ("Vitamin D, 25 Hydroxy", ⟨ "ng/mL", ⟨30, 100⟩⟩),
    ("ZincRH", ⟨ "µmol/L", ⟨10, 20⟩⟩),
    ("Immunoglobulin E (IgE)", ⟨ "IU/mL", ⟨0, 100⟩⟩),
    ("Free Thyroxine (FT4)", ⟨ "ng/dL", ⟨0.8, 1.8⟩⟩),
    ("Free Tri-iodothyronine (FT3)", ⟨ "pg/mL", ⟨2.3, 4.2⟩⟩),
    ("Thyroid Stimulating Hormone (TSH)", ⟨ "µIU/mL", ⟨0.4, 4.0⟩⟩),
    ("Sex Hormone Binding Globulin (SHBG)", ⟨ "nmol/L", ⟨10, 80⟩⟩),
    ("Testosterone, Total", ⟨ "ng/dL", ⟨280, 1100⟩⟩),
    ("Estradiol", ⟨ "pg/mL", ⟨10, 50⟩⟩),
    ("Total Prostate Specific Antigen (TPSA)", ⟨ "ng/mL", ⟨0, 4⟩⟩) ]

/-! ### `extractAllBiomarkers` (main route) -/

/-- The `exclusionPatterns` array.  Each regex is an unanchored alternation
of (case-insensitive) literals except for `com$`, so the tests reduce to
substring/suffix checks on the lowercased candidate name. -/
def exclusionHit (clean : List Char) : Bool :=
  let l := lowerize clean
  containsAnySub l [ "address", "street", "ave", "avenue", "blvd", "boulevard", "suite"] ||
  containsAnySub l [ "city", "state", "zip", "postal"] ||
  containsAnySub l [ "phone", "fax", "email", "contact"] ||
  containsAnySub l [ "inc.", "llc", "corporation", "copyright", "rights reserved"] ||
  containsAnySub l [ "randox health"] ||
  (endsWithSub l ("com").data || containsAnySub l [ ".com", "www."])

def sectionHeaders : List String :=
  [ "patient information", "doctor information", "laboratory information",
    "billing information", "insurance", "diagnosis", "specimen", "comments",
    "methodology", "interpretation", "disclaimer"]

def commonWords : List String :=
  [ "test", "result", "value", "normal", "reference", "range",
    "name", "gender", "dob", "page", "report", "date", "time"]

def collapseRunsAux (p : Char → Bool) : Bool → List Char → List Char
  | _, [] => []
  | inRun, c :: rest =>
      if p c then
        if inRun then collapseRunsAux p true rest
        else ' ' :: collapseRunsAux p true rest
      else c :: collapseRunsAux p false rest

/-- Replace each maximal run of characters satisfying `p` by one space
(JS `replace(/X+/g, ' ')` for a character class `X`). -/
def collapseRuns (p : Char → Bool) (s : List Char) : List Char :=
  collapseRunsAux p false s

/-- `name.trim().replace(/\s+/g, ' ')` -/
def cleanNameOf (name : String) : List Char :=
  collapseRuns isSpaceC (trimJs name.data)

/-- The dictionary-membership test used by `isBiomarkerName`:
case-insensitive equality or substring containment in either direction. -/
def matchesKnown (cleanLower : List Char) : Bool :=
  BIOMARKER_DEFINITIONS.any (fun p =>
    let kb := lowerize p.1.data
    cleanLower = kb || containsSub cleanLower kb || containsSub kb cleanLower)

/-- `cleanName.split(/\s+/).length` (the clean name is already trimmed and
space-collapsed, so counting space-separated words suffices). -/
def wordCount (clean : List Char) : Nat :=
  ((splitOnChar ' ' clean).filter (fun t => !t.isEmpty)).length

/-- `isBiomarkerName` of the main route. -/
def isBiomarkerName (name : String) : Bool :=
  let clean := cleanNameOf name
  if exclusionHit clean then false
  else if clean.length < 3 || clean.length > 60 then false
  else if sectionHeaders.any (fun h => containsSub (lowerize clean) h.data) then false
  else if matchesKnown (lowerize clean) then true
  else if wordCount clean = 1 && commonWords.any (fun w => w.data = lowerize clean) then false
  else true

/-- `isValidValue` of the main route. -/
def isValidValue (value : Rat) : Bool :=
  if value < 0 || value > 100000 then false else true

/-- The candidate-match record collected by the pattern passes. -/
structure Candidate where
  name : String
  value : Rat
  unit : Option String
  position : Nat
deriving DecidableEq, Repr

def nameCls : List CCl :=
  [ .rng 'A' 'Z', .rng 'a' 'z', .rng '0' '9', .space, .chr '-', .chr '(',
    .chr ')', .chr '/']

def nameClsRN : List CCl := nameCls ++ [ .chr '\r', .chr '\n']

def firstLetterCls : List CCl := [ .rng 'A' 'Z', .rng 'a' 'z']

def sepCls : List CCl := [ .space, .chr ':', .chr '.']

def unitCls : List CCl := [ .word, .chr '/', .chr '%', .chr '^']

/-- `(\d+\.?\d*)` -/
def numValRE : RE :=
  reSeq [ plusG [ .digit], optG (.cls false [ .chr '.']), starG [ .digit]]

/-- `([A-Za-z][...]*?)` — the lazy candidate-name capture. -/
def nameGrpRE (cls : List CCl) : RE :=
  .grp 1 (.seq (.cls false firstLetterCls) (.rep true 0 none false cls))

/-- `[\s]*([\w/%\^]+)?` -/
def unitOptRE : RE :=
  reSeq [ starG [ .space], optG (.grp 3 (plusG unitCls))]

/-- The `patternsList` array: (ignore-case flag, regex) in source order. -/
def patternsList : List (Bool × RE) :=
  [ (false, reSeq [ nameGrpRE nameCls, plusG sepCls, .grp 2 numValRE, unitOptRE]),
    (false, reSeq [ nameGrpRE nameCls, plusG [ .space], .grp 2 numValRE,
      plusG [ .space], .grp 3 (plusG unitCls)]),
    (true, reSeq [ nameGrpRE nameCls, plusG sepCls, .grp 2 numValRE, unitOptRE,
      starG [ .space, .chr '('], reAlt [ lit "Reference Range", lit "Normal"],
      starG [ .space, .chr ':', .chr '-'], .grp 4 numValRE,
      starG [ .space, .chr '-'], .grp 5 numValRE]),
    (true, reSeq [ nameGrpRE nameCls, plusG sepCls, .grp 2 numValRE, unitOptRE,
      starG [ .space], .grp 4 (.cls false [ .chr 'H', .chr 'L'])]),
    (false, reSeq [ nameGrpRE nameClsRN, plusG sepCls, .grp 2 numValRE, unitOptRE]) ]

/-- `/^\d{1,2}\/\d{1,2}\/\d{2,4}$/.test(match[0])` — the date-like skip. -/
def ddShape (s : List Char) : Bool :=
  let (d1, s1) := splitDigits s
  match s1 with
  | '/' :: s2 =>
      let (d2, s3) := splitDigits s2
      match s3 with
      | '/' :: s4 =>
          let (d3, s5) := splitDigits s4
          decide (1 ≤ d1.length ∧ d1.length ≤ 2 ∧ 1 ≤ d2.length ∧
            d2.length ≤ 2 ∧ 2 ≤ d3.length ∧ d3.length ≤ 4) && s5.isEmpty
      | _ => false
  | _ => false

/-- The body of the per-pattern `exec` loop: build a candidate from a match,
apply the date-like skip and the two filters.  The value capture
`(\d+\.?\d*)` always starts with a digit, so `parseFloat` cannot yield
`NaN` here. -/
def candOfMatch (t : List Char) (m : MatchRes) : Option Candidate :=
  let whole := sliceL t m.mstart m.mend
  let name := chStr (trimJs ((capGet m.caps 1).getD []))
  let unit := (capGet m.caps 3).map (fun u => chStr (trimJs u))
  if ddShape whole || containsAnySub (lowerize name.data) [ "date", "time"] then none
  else
    match parseFloatQ ((capGet m.caps 2).getD []) with
    | some value =>
        if isBiomarkerName name && isValidValue value then
          some ⟨name, value, unit, m.mstart⟩
        else none
    | none => none

def allPotentialMatchesRaw (t : List Char) : List Candidate :=
  (patternsList.map (fun p => (execAll p.1 p.2 t).filterMap (candOfMatch t))).flatten

/-- Stable insertion keeping earlier elements first among equal positions
(`Array.prototype.sort` is stable). -/
def insertByPos (c : Candidate) : List Candidate → List Candidate
  | [] => [c]
  | d :: ds => if d.position ≤ c.position then d :: insertByPos c ds else c :: d :: ds

def sortByPos (l : List Candidate) : List Candidate :=
  l.foldl (fun acc c => insertByPos c acc) []

def allPotentialMatches (t : List Char) : List Candidate :=
  sortByPos (allPotentialMatchesRaw t)

/-! State threading for the two passes (`biomarkers` keeps JS object key
insertion/update order; the write-only `biomarkerPositions` map of the
source is not read anywhere and is omitted). -/

def getKey (m : List (String × Biomarker)) (k : String) : Option Biomarker :=
  (m.find? (fun p => p.1 = k)).map Prod.snd

def setKey : List (String × Biomarker) → String → Biomarker → List (String × Biomarker)
  | [], k, v => [(k, v)]
  | (k0, v0) :: rest, k, v =>
      if k0 = k then (k0, v) :: rest else (k0, v0) :: setKey rest k v

structure ExtractState where
  biomarkers : List (String × Biomarker)
  originalOrder : List String
deriving DecidableEq, Repr

/-- `addBiomarker`: normalize the name (`[\r\n]+ → ' '`, then `\s+ → ' '`,
then trim), store under the normalized key, and append to `originalOrder`
unless already present. -/
def normalizeName (name : String) : String :=
  chStr (trimJs (collapseRuns isSpaceC
    (collapseRuns (fun c => c = '\r' || c = '\n') name.data)))

def addBiomarker (st : ExtractState) (name : String) (bm : Biomarker) : ExtractState :=
  let n := normalizeName name
  { biomarkers := setKey st.biomarkers n bm,
    originalOrder :=
      if st.originalOrder.contains n then st.originalOrder
      else st.originalOrder ++ [n] }

/-- The pass-1 dictionary lookup (`Object.keys(...).find(...)` with the
containment rule), returning the first matching entry. -/
def findMatchingKnown (name : String) : Option (String × BiomarkerDefinition) :=
  BIOMARKER_DEFINITIONS.find? (fun p =>
    let nl := lowerize name.data
    let kb := lowerize p.1.data
    nl = kb || containsSub nl kb || containsSub kb nl)

/-- JS `unit || definition.units` (`undefined` and the empty string are
falsy). -/
def unitOrDefault (unit : Option String) (deflt : String) : String :=
  match unit with
  | some u => if u = "" then deflt else u
  | none => deflt

/-- One iteration of the first (known-biomarker) pass. -/
def pass1Step (st : ExtractState) (c : Candidate) : ExtractState :=
  if (getKey st.biomarkers c.name).isSome then st
  else
    match findMatchingKnown c.name with
    | some kd =>
        addBiomarker st c.name
          ⟨c.value, some (unitOrDefault c.unit kd.2.units), some kd.2.range,
            some st.originalOrder.length⟩
    | none => st

/-- `([<>]?\s*\d+\.?\d*)` -/
def angleNumRE : RE :=
  reSeq [ optG (.cls false [ .chr '<', .chr '>']), starG [ .space], numValRE]

def dashCls : List CCl := [ .chr '-', .chr '–']

/-- The dynamically built first context pattern
`` `${name}[\s:]+${value}[\s]*(${unit || ''})[\s]*[\(\[]?([\d\.]+)\s*[-–]\s*([\d\.]+)[\)\]]?` ``.
The source splices the raw name, the stringified value and the unit into
the regex source; they are embedded as literal characters here (none of the
witness inputs below contain regex metacharacters in those strings). -/
def dynRangeRE (name : String) (value : Rat) (unit : Option String) : RE :=
  reSeq [ .lit name.data, plusG [ .space, .chr ':'], .lit (ratToJsStr value).data,
    starG [ .space], .grp 1 (.lit (unit.getD "").data), starG [ .space],
    optG (.cls false [ .chr '(', .chr '[']),
    .grp 2 (plusG [ .digit, .chr '.']), starG [ .space], .cls false dashCls,
    starG [ .space], .grp 3 (plusG [ .digit, .chr '.']),
    optG (.cls false [ .chr ')', .chr ']']) ]

/-- `/Reference Range:?\s*([<>]?\s*\d+\.?\d*)\s*[-–]\s*([<>]?\s*\d+\.?\d*)/i`
(and the `Normal Range` variant). -/
def labeledRangeRE (label : String) : RE :=
  reSeq [ lit label, optG (.cls false [ .chr ':']), starG [ .space],
    .grp 1 angleNumRE, starG [ .space], .cls false dashCls, starG [ .space],
    .grp 2 angleNumRE]

/-- `/\(([<>]?\s*\d+\.?\d*)\s*[-–]\s*([<>]?\s*\d+\.?\d*)\)/` -/
def parenRangeRE : RE :=
  reSeq [ lit "(", .grp 1 angleNumRE, starG [ .space], .cls false dashCls,
    starG [ .space], .grp 2 angleNumRE, lit ")"]

/-- `.replace(/[<>]/g, '').trim()` -/
def stripAngleTrim (s : List Char) : List Char :=
  trimJs (s.filter (fun c => c ≠ '<' && c ≠ '>'))

/-- One range pattern tried against the surrounding text: the source reads
`rangeMatch[1]` and `rangeMatch[2]` for every pattern (for the dynamic
pattern these are the unit group and the first number, reproducing the
source's group numbering), requires both truthy, parses after stripping
comparison operators, and accepts only when both parse and `min < max`. -/
def tryRangePattern (surr : List Char) (ci : Bool) (re : RE) : Option RRange :=
  match findFrom ci re surr 0 with
  | none => none
  | some m =>
      match capGet m.caps 1, capGet m.caps 2 with
      | some g1, some g2 =>
          if g1.isEmpty || g2.isEmpty then none
          else
            match parseFloatQ (stripAngleTrim g1), parseFloatQ (stripAngleTrim g2) with
            | some mn, some mx => if mn < mx then some ⟨mn, mx⟩ else none
            | _, _ => none
      | _, _ => none

/-- The `rangePatterns` loop of pass 2, in source order. -/
def findContextRange (surr : List Char) (c : Candidate) : Option RRange :=
  match tryRangePattern surr false (dynRangeRE c.name c.value c.unit) with
  | some r => some r
  | none =>
      match tryRangePattern surr true (labeledRangeRE "Reference Range") with
      | some r => some r
      | none =>
          match tryRangePattern surr true (labeledRangeRE "Normal Range") with
          | some r => some r
          | none => tryRangePattern surr false parenRangeRE

/-- One iteration of the second (remaining-candidates) pass: the context
window is 100 characters before to 200 after the candidate's offset. -/
def pass2Step (t : List Char) (st : ExtractState) (c : Candidate) : ExtractState :=
  if (getKey st.biomarkers c.name).isSome then st
  else
    let contextStart := c.position - 100
    let contextEnd := min t.length (c.position + 200)
    let surrounding := sliceL t contextStart contextEnd
    addBiomarker st c.name
      ⟨c.value, c.unit, findContextRange surrounding c,
        some st.originalOrder.length⟩

/-- The two passes over the sorted candidate list (everything before the
separate reference-range backfill sweep). -/
def extractPasses (t : List Char) : ExtractState :=
  let cands := allPotentialMatches t
  let st1 := cands.foldl pass1Step ⟨[], []⟩
  cands.foldl (pass2Step t) st1

/-- The final whole-text range sweep
`/([A-Za-z][A-Za-z0-9\s\-\(\)\/]*?)[\s:\.]+(?:reference|normal|range|ref)[\s:\.]*([<>]?\s*\d+\.?\d*)\s*[-–]\s*([<>]?\s*\d+\.?\d*)/gi`. -/
def backfillRE : RE :=
  reSeq [ nameGrpRE nameCls, plusG sepCls,
    reAlt [ lit "reference", lit "normal", lit "range", lit "ref"],
    starG sepCls, .grp 2 angleNumRE, starG [ .space], .cls false dashCls,
    starG [ .space], .grp 3 angleNumRE]

/-- One iteration of the backfill loop: only names already present and
still missing a range are touched; the parsed pair is installed without a
`min < max` check. -/
def backfillStep (mp : List (String × Biomarker)) (m : MatchRes) :
    List (String × Biomarker) :=
  let bname := chStr (trimJs ((capGet m.caps 1).getD []))
  match getKey mp bname with
  | none => mp
  | some bm =>
      if !isBiomarkerName bname then mp
      else
        match parseFloatQ (stripAngleTrim ((capGet m.caps 2).getD [])),
            parseFloatQ (stripAngleTrim ((capGet m.caps 3).getD [])) with
        | some mn, some mx =>
            if bm.referenceRange.isSome then mp
            else setKey mp bname { bm with referenceRange := some ⟨mn, mx⟩ }
        | _, _ => mp

/-- `extractAllBiomarkers` of the main route. -/
def extractAllBiomarkers (text : String) : ExtractState :=
  let t := text.data
  let st := extractPasses t
  { biomarkers := (execAll true backfillRE t).foldl backfillStep st.biomarkers,
    originalOrder := st.originalOrder }

/-! ### The legacy near-duplicate route (`blood-test-analyzer/.../route.ts`) -/

namespace LegacyRoute

/-- `Math.floor` on the exact rationals standing in for JS numbers. -/
def floorQ (q : Rat) : Rat := mkRat (Int.fdiv q.num q.den) 1

/-- The round-value list of the legacy `isValidValue`. -/
def roundValues : List Rat :=
  [ 1, 2, 3, 4, 5, 6, 7, 8, 9, 10, 20, 25, 30, 40, 50, 75, 90]

/-- `isValidValue` of the legacy route: bound 10,000,000 (not 100,000), plus
a filter dropping small round whole numbers. -/
def isValidValue (value : Rat) : Bool :=
  if value < 0 || value > 10000000 then false
  else if value < 100 && value = floorQ value && roundValues.contains value then false
  else true

end LegacyRoute

/-! ### The per-file handler of `POST` (main route)

Only the pure shape of the per-file promise is embedded: the PDF decode is
an external effect, so its outcome is a parameter, as is the current
processing time `new Date().toISOString()` observed in the error branch.
The two reject sites produce the two fixed error messages below; the
`error instanceof Error` test is then true, so `error.message` is returned
verbatim. -/

structure AnalysisResult where
  fileName : String
  testDate : String
  biomarkers : List (String × Biomarker)
  originalOrder : List String
  error : Option String
deriving DecidableEq, Repr

inductive DecodeOutcome where
  | ok (text : String)
  | contentFailure
  | dataFailure
deriving DecidableEq, Repr

/-- The per-file task: on success, date extraction plus biomarker
extraction (`testDate || new Date().toISOString()` falls back to `now` only
if the extractor returned a falsy value, which it never does); on decode
failure, the catch branch builds an error result stamped with `now`. -/
def analyzeFile (now : String) (fileName : String) (d : DecodeOutcome) :
    AnalysisResult :=
  match d with
  | .ok text =>
      let st := extractAllBiomarkers text
      { fileName := fileName,
        testDate := match extractTestDate text.data with
          | some s => if s = "" then now else s
          | none => now,
        biomarkers := st.biomarkers, originalOrder := st.originalOrder,
        error := none }
  | .contentFailure =>
      { fileName := fileName, testDate := now, biomarkers := [],
        originalOrder := [], error := some "Failed to parse PDF content" }
  | .dataFailure =>
      { fileName := fileName, testDate := now, biomarkers := [],
        originalOrder := [], error := some "Failed to parse PDF" }

/-- Ranges installed by the scanner passes satisfy `min < max`. -/
def rangeOrdered (bm : Biomarker) : Prop :=
  ∀ r, bm.referenceRange = some r → r.min < r.max

def RangesOK (m : List (String × Biomarker)) : Prop :=
  ∀ p ∈ m, rangeOrdered p.2

/-- The state invariant behind claim C6: the mapping's keys, in insertion
order, are exactly `originalOrder`, and `originalOrder` has no duplicates. -/
def KeysMatchOrder (st : ExtractState) : Prop :=
  st.biomarkers.map Prod.fst = st.originalOrder ∧ st.originalOrder.Nodup

/-! ### Supporting lemmas -/

theorem foldl_preserve {α β : Type} {P : β → Prop} {f : β → α → β}
    (hf : ∀ b a, P b → P (f b a)) :
    ∀ (l : List α) (b : β), P b → P (l.foldl f b)
  | [], _, hb => hb
  | a :: l, b, hb => foldl_preserve hf l (f b a) (hf b a hb)

theorem mem_setKey {p : String × Biomarker} :
    ∀ {m : List (String × Biomarker)} {k : String} {v : Biomarker},
      p ∈ setKey m k v → p.2 = v ∨ p ∈ m := by
  intro m
  induction m with
  | nil =>
      intro k v hp
      simp only [setKey, List.mem_singleton] at hp
      exact Or.inl (by rw [hp])
  | cons hd tl ih =>
      intro k v hp
      unfold setKey at hp
      split at hp
      · rcases List.mem_cons.mp hp with h | h
        · exact Or.inl (by rw [h])
        · exact Or.inr (List.mem_cons_of_mem _ h)
      · rcases List.mem_cons.mp hp with h | h
        · exact Or.inr (by rw [h]; exact List.mem_cons_self _ _)
        · rcases ih h with h2 | h2
          · exact Or.inl h2
          · exact Or.inr (List.mem_cons_of_mem _ h2)

theorem getKey_mem {m : List (String × Biomarker)} {k : String} {bm : Biomarker}
    (h : getKey m k = some bm) : ∃ p ∈ m, p.1 = k ∧ p.2 = bm := by
  unfold getKey at h
  rcases Option.map_eq_some'.mp h with ⟨pr, hfind, hsnd⟩
  refine ⟨pr, List.mem_of_find?_eq_some hfind, ?_, hsnd⟩
  have := List.find?_some hfind
  simpa using this

theorem getKey_setKey_self :
    ∀ (m : List (String × Biomarker)) (k : String) (v : Biomarker),
      getKey (setKey m k v) k = some v := by
  intro m
  induction m with
  | nil => intro k v; simp [setKey, getKey, List.find?]
  | cons hd tl ih =>
      intro k v
      unfold setKey
      split
      · rename_i heq
        simp [getKey, List.find?, heq]
      · rename_i hne
        have : getKey (hd :: setKey tl k v) k = getKey (setKey tl k v) k := by
          simp only [getKey, List.find?]
          have : (hd.1 = k) = False := by
            simp only [eq_iff_iff, iff_false]
            exact hne
          simp [this]
        rw [this, ih]

theorem setKey_map_fst :
    ∀ (m : List (String × Biomarker)) (k : String) (v : Biomarker),
      (setKey m k v).map Prod.fst =
        if k ∈ m.map Prod.fst then m.map Prod.fst else m.map Prod.fst ++ [k] := by
  intro m
  induction m with
  | nil => intro k v; simp [setKey]
  | cons hd tl ih =>
      intro k v
      unfold setKey
      split
      · rename_i heq
        simp [heq]
      · rename_i hne
        have hkne : ¬(k = hd.1) := fun h => hne h.symm
        by_cases hmem : k ∈ tl.map Prod.fst
        · simp [ih, hmem, List.mem_cons, hkne]
        · simp [ih, hmem, List.mem_cons, hkne]

theorem rangesOK_setKey {m : List (String × Biomarker)} {k : String}
    {v : Biomarker} (hm : RangesOK m) (hv : rangeOrdered v) :
    RangesOK (setKey m k v) := by
  intro p hp
  rcases mem_setKey hp with h | h
  · rw [h]; exact hv
  · exact hm p h

theorem rangesOK_addBiomarker {st : ExtractState} {n : String} {bm : Biomarker}
    (hm : RangesOK st.biomarkers) (hv : rangeOrdered bm) :
    RangesOK (addBiomarker st n bm).biomarkers := by
  unfold addBiomarker
  exact rangesOK_setKey hm hv

theorem dict_ranges_ordered :
    ∀ p ∈ BIOMARKER_DEFINITIONS, p.2.range.min < p.2.range.max := by
  intro p hp
  fin_cases hp <;> norm_num

theorem findMatchingKnown_range_ordered {name : String}
    {kd : String × BiomarkerDefinition} (h : findMatchingKnown name = some kd) :
    kd.2.range.min < kd.2.range.max :=
  dict_ranges_ordered kd (List.mem_of_find?_eq_some h)

theorem tryRangePattern_ordered {surr : List Char} {ci : Bool} {re : RE}
    {r : RRange} (h : tryRangePattern surr ci re = some r) : r.min < r.max := by
  unfold tryRangePattern at h
  split at h
  · exact absurd h (by simp)
  · split at h
    · split at h
      · exact absurd h (by simp)
      · split at h
        · rename_i mn mx _
          split at h
          · rename_i hlt
            rw [Option.some_inj.symm] at h
            cases h
            exact hlt
          · exact absurd h (by simp)
        · exact absurd h (by simp)
    · exact absurd h (by simp)

theorem findContextRange_ordered {surr : List Char} {c : Candidate} {r : RRange}
    (h : findContextRange surr c = some r) : r.min < r.max := by
  unfold findContextRange at h
  split at h
  · rename_i h1
    cases h
    exact tryRangePattern_ordered h1
  · split at h
    · rename_i h1
      cases h
      exact tryRangePattern_ordered h1
    · split at h
      · rename_i h1
        cases h
        exact tryRangePattern_ordered h1
      · exact tryRangePattern_ordered h

theorem pass1Step_rangesOK {st : ExtractState} {c : Candidate}
    (hm : RangesOK st.biomarkers) : RangesOK (pass1Step st c).biomarkers := by
  unfold pass1Step
  split
  · exact hm
  · split
    · rename_i kd hkd
      apply rangesOK_addBiomarker hm
      intro r hr
      simp only [Option.some_inj] at hr
      rw [← hr]
      exact findMatchingKnown_range_ordered hkd
    · exact hm

theorem pass2Step_rangesOK {t : List Char} {st : ExtractState} {c : Candidate}
    (hm : RangesOK st.biomarkers) : RangesOK (pass2Step t st c).biomarkers := by
  unfold pass2Step
  split
  · exact hm
  · apply rangesOK_addBiomarker hm
    intro r hr
    exact findContextRange_ordered hr

theorem extractPasses_rangesOK (t : List Char) :
    RangesOK (extractPasses t).biomarkers := by
  unfold extractPasses
  apply foldl_preserve (P := fun st : ExtractState => RangesOK st.biomarkers)
  · intro b a hb
    exact pass2Step_rangesOK hb
  · apply foldl_preserve (P := fun st : ExtractState => RangesOK st.biomarkers)
    · intro b a hb
      exact pass1Step_rangesOK hb
    · intro p hp
      simp at hp

theorem getKey_mem_keys {m : List (String × Biomarker)} {k : String}
    {bm : Biomarker} (h : getKey m k = some bm) : k ∈ m.map Prod.fst := by
  rcases getKey_mem h with ⟨p, hp, hk, _⟩
  exact hk ▸ List.mem_map_of_mem Prod.fst hp

theorem addBiomarker_keysMatch {st : ExtractState} {n : String} {bm : Biomarker}
    (h : KeysMatchOrder st) : KeysMatchOrder (addBiomarker st n bm) := by
  rcases h with ⟨hkeys, hnd⟩
  unfold addBiomarker KeysMatchOrder
  simp only
  rw [setKey_map_fst, hkeys]
  by_cases hmem : normalizeName n ∈ st.originalOrder
  · rw [if_pos hmem]
    have : st.originalOrder.contains (normalizeName n) = true := List.elem_iff.mpr hmem
    rw [if_pos this]
    exact ⟨rfl, hnd⟩
  · rw [if_neg hmem]
    have : ¬st.originalOrder.contains (normalizeName n) = true := by
      intro hcon
      exact hmem (List.elem_iff.mp hcon)
    rw [if_neg this]
    refine ⟨rfl, ?_⟩
    rw [List.nodup_append]
    exact ⟨hnd, List.nodup_singleton _, by
      intro a ha hb
      simp only [List.mem_singleton] at hb
      exact hmem (hb ▸ ha)⟩

theorem pass1Step_keysMatch {st : ExtractState} {c : Candidate}
    (h : KeysMatchOrder st) : KeysMatchOrder (pass1Step st c) := by
  unfold pass1Step
  split
  · exact h
  · split
    · exact addBiomarker_keysMatch h
    · exact h

theorem pass2Step_keysMatch {t : List Char} {st : ExtractState} {c : Candidate}
    (h : KeysMatchOrder st) : KeysMatchOrder (pass2Step t st c) := by
  unfold pass2Step
  split
  · exact h
  · exact addBiomarker_keysMatch h

theorem extractPasses_keysMatch (t : List Char) :
    KeysMatchOrder (extractPasses t) := by
  unfold extractPasses
  apply foldl_preserve (P := KeysMatchOrder)
  · intro b a hb
    exact pass2Step_keysMatch hb
  · apply foldl_preserve (P := KeysMatchOrder)
    · intro b a hb
      exact pass1Step_keysMatch hb
    · exact ⟨rfl, List.nodup_nil⟩

theorem setKey_map_fst_of_mem {m : List (String × Biomarker)} {k : String}
    {v : Biomarker} (h : k ∈ m.map Prod.fst) :
    (setKey m k v).map Prod.fst = m.map Prod.fst := by
  rw [setKey_map_fst, if_pos h]

theorem backfillStep_keys (mp : List (String × Biomarker)) (m : MatchRes) :
    (backfillStep mp m).map Prod.fst = mp.map Prod.fst := by
  unfold backfillStep
  split
  · cases hget : getKey mp (chStr (trimJs ((capGet m.caps 1).getD []))) with
    | none => simp [hget]
    | some bm =>
        simp only [hget]
        split
        · rfl
        · split
          · rfl
          · exact setKey_map_fst_of_mem (getKey_mem_keys hget)
  · cases hget : getKey mp (chStr (trimJs ((capGet m.caps 1).getD []))) with
    | none => simp [hget]
    | some bm =>
        simp only [hget]
        split <;> rfl

/-! ### Claim theorems -/

/-- C1 (counterexample): the claim asserts that the value filter accepts a
candidate value only if it is at most 100000 and that 100001 is rejected by
every pattern pass; but the legacy route's value filter (one of the two
`isValidValue` functions the claim cites) accepts 100001, its bound being
10,000,000. -/
theorem C1_legacy_filter_accepts_100001 :
    LegacyRoute.isValidValue 100001 = true ∧ ¬((100001 : Rat) ≤ 100000) :=
  ⟨by decide, by decide⟩

/-- C1 (amended): the main route's value filter accepts exactly the values
`0 ≤ v ≤ 100000` (hence rejects -1 and 100001 in every pattern pass of that
route); the legacy route's filter instead accepts exactly the values
`0 ≤ v ≤ 10000000` that are not small round whole numbers, so 100001 is
accepted there. -/
theorem C1_value_filter_characterization :
    ∀ v : Rat,
      (isValidValue v = true ↔ (0 ≤ v ∧ v ≤ 100000)) ∧
      (LegacyRoute.isValidValue v = true ↔
        (0 ≤ v ∧ v ≤ 10000000 ∧
          ¬(v < 100 ∧ v = LegacyRoute.floorQ v ∧ v ∈ LegacyRoute.roundValues))) := by
  intro v
  constructor
  · unfold isValidValue
    split_ifs with h
    · simp only [Bool.or_eq_true, decide_eq_true_eq] at h
      simp only [Bool.false_eq_true, false_iff]
      rintro ⟨h0, h1⟩
      rcases h with h | h
      · exact absurd h0 (not_le.mpr h)
      · exact absurd h1 (not_le.mpr h)
    · simp only [Bool.or_eq_true, decide_eq_true_eq] at h
      push_neg at h
      simp only [true_iff]
      exact h
  · unfold LegacyRoute.isValidValue
    split_ifs with hA hB
    · simp only [Bool.or_eq_true, decide_eq_true_eq] at hA
      simp only [Bool.false_eq_true, false_iff]
      rintro ⟨h0, h1, -⟩
      rcases hA with h | h
      · exact absurd h0 (not_le.mpr h)
      · exact absurd h1 (not_le.mpr h)
    · simp only [Bool.and_eq_true, decide_eq_true_eq] at hB
      simp only [Bool.false_eq_true, false_iff]
      rintro ⟨-, -, hnC⟩
      exact hnC ⟨hB.1.1, hB.1.2, List.elem_iff.mp hB.2⟩
    · simp only [Bool.or_eq_true, decide_eq_true_eq, not_or] at hA
      simp only [true_iff]
      refine ⟨not_lt.mp hA.1, not_lt.mp hA.2, ?_⟩
      intro hC
      exact hB (by
        simp only [Bool.and_eq_true, decide_eq_true_eq]
        exact ⟨⟨hC.1, hC.2.1⟩, List.elem_iff.mpr hC.2.2⟩)

/-- C2: for every report text in which neither the collection-date branch
nor any entry of the `datePatterns` loop yields an accepted date, the Date
Extractor returns exactly the string `2023-06-15T00:00:00.000Z` — never
`null` (`none`). -/
theorem C2_fallback_date_when_no_pattern (text : String)
    (h1 : (collectionCapture text.data).bind parseCollectionDate = none)
    (h2 : tryDatePatterns text.data = none) :
    extractTestDate text.data = some "2023-06-15T00:00:00.000Z" := by
  unfold extractTestDate
  rw [h1, h2]
  rfl

/-- C2 (witness): a text with no date pattern at all gets the fixed
fallback date. -/
theorem C2_fallback_date_witness :
    extractTestDate ("hello").data = some "2023-06-15T00:00:00.000Z" :=
  C2_fallback_date_when_no_pattern "hello" (by decide) (by decide)

/-- C3 (counterexample): the claim quantifies over every text containing
the substring `"Collection Date, Time\n08-Feb-2024"`, but the collection
pattern returns its first match, so a text that also contains an earlier
collection date returns that earlier date, not 2024-02-08. -/
theorem C3_earlier_collection_date_wins :
    containsSub
        ("Collection Date, Time\n01-Jan-2023 Collection Date, Time\n08-Feb-2024").data
        ("Collection Date, Time\n08-Feb-2024").data = true ∧
    extractTestDate
        ("Collection Date, Time\n01-Jan-2023 Collection Date, Time\n08-Feb-2024").data =
      some "2023-01-01T00:00:00.000Z" ∧
    ("2023-01-01T00:00:00.000Z" : String) ≠ "2024-02-08T00:00:00.000Z" :=
  ⟨by decide, by decide, by decide⟩

/-- C3 (amended): for every text whose first match of the collection-date
pattern captures `08-Feb-2024`, the Date Extractor returns the ISO
timestamp for 2024-02-08 at local midnight immediately.  (A text may
contain the claimed substring yet have an earlier collection-date match
with a different date, which wins — see the counterexample.) -/
theorem C3_first_collection_capture_feb8 (text : String)
    (h : collectionCapture text.data = some ("08-Feb-2024").data) :
    extractTestDate text.data = some "2024-02-08T00:00:00.000Z" := by
  unfold extractTestDate
  rw [h]
  rfl

/-- C3 (witness): on the bare collection-date text the extractor returns
2024-02-08. -/
theorem C3_first_collection_capture_witness :
    extractTestDate ("Collection Date, Time\n08-Feb-2024").data =
      some "2024-02-08T00:00:00.000Z" :=
  C3_first_collection_capture_feb8 "Collection Date, Time\n08-Feb-2024" (by decide)

/-- C4 (counterexample): the separate backfill sweep installs a captured
range pair with no `min < max` check, so a returned observation can carry
the inverted range `{min: 200, max: 100}`. -/
theorem C4_backfill_installs_inverted_range :
    getKey (extractAllBiomarkers "Zebrafoo: 42 mg.\nZebrafoo range 200 - 100").biomarkers
        "Zebrafoo" = some ⟨42, some "mg", some ⟨200, 100⟩, some 0⟩ ∧
    ¬((200 : Rat) < 100) :=
  ⟨by decide, by decide⟩

/-- C4 (amended): every reference range present after the two scanner
passes (dictionary defaults in pass 1, context-window ranges in pass 2 —
i.e. everything before the final backfill sweep) satisfies `min < max`;
the backfill sweep alone can install an unordered pair. -/
theorem C4_scanner_ranges_ordered (text : String) (k : String) (bm : Biomarker)
    (r : RRange) (h1 : getKey (extractPasses text.data).biomarkers k = some bm)
    (h2 : bm.referenceRange = some r) : r.min < r.max := by
  rcases getKey_mem h1 with ⟨p, hp, _, hsnd⟩
  exact extractPasses_rangesOK text.data p hp r (by rw [hsnd]; exact h2)

/-- C4 (witness): the Glucose observation's dictionary range 70–100 is
ordered. -/
theorem C4_scanner_ranges_ordered_witness :
    ((⟨70, 100⟩ : RRange)).min < ((⟨70, 100⟩ : RRange)).max :=
  C4_scanner_ranges_ordered "Glucose: 85 mg/dL" "Glucose"
    ⟨85, some "mg/dL", some ⟨70, 100⟩, some 0⟩ ⟨70, 100⟩ (by decide) (by decide)

/-- C5 (counterexample): two mentions of the same biomarker whose raw
spellings differ but normalize to the same key — here `Zeb Foo` and
`Zeb  Foo` (double space) — do not obey first-accepted-wins: the later
mention is re-processed (its raw name is not a key) and overwrites the
stored value, so the mapping retains the second value 2, not the first
value 1. -/
theorem C5_normalized_name_overwrites :
    extractAllBiomarkers "Zeb Foo: 1 u\nZeb  Foo: 2 u" =
      ⟨[("Zeb Foo", ⟨2, some "u", none, some 1⟩)], ["Zeb Foo"]⟩ ∧
    (2 : Rat) ≠ 1 :=
  ⟨by decide, by decide⟩

/-- C5 (amended): first-accepted-wins holds at the level the code checks
it: a candidate whose *raw* name is already a key of the mapping is skipped
unchanged by both passes.  Since stored keys are normalized names, a later
mention whose raw spelling differs from the stored key is instead
re-accepted and overwrites the value (see the counterexample). -/
theorem C5_existing_raw_name_skipped (t : List Char) (st : ExtractState)
    (c : Candidate) (h : (getKey st.biomarkers c.name).isSome = true) :
    pass1Step st c = st ∧ pass2Step t st c = st := by
  constructor
  · unfold pass1Step
    rw [if_pos h]
  · unfold pass2Step
    rw [if_pos h]

/-- C5 (witness): a candidate whose raw name is already stored is a no-op
for both passes. -/
theorem C5_existing_raw_name_skipped_witness :
    pass1Step ⟨[("Zeb", ⟨1, none, none, some 0⟩)], ["Zeb"]⟩ ⟨"Zeb", 2, none, 5⟩ =
        ⟨[("Zeb", ⟨1, none, none, some 0⟩)], ["Zeb"]⟩ ∧
    pass2Step [] ⟨[("Zeb", ⟨1, none, none, some 0⟩)], ["Zeb"]⟩ ⟨"Zeb", 2, none, 5⟩ =
        ⟨[("Zeb", ⟨1, none, none, some 0⟩)], ["Zeb"]⟩ :=
  C5_existing_raw_name_skipped [] ⟨[("Zeb", ⟨1, none, none, some 0⟩)], ["Zeb"]⟩
    ⟨"Zeb", 2, none, 5⟩ (by decide)

/-- C6 (counterexample): re-insertion under an existing normalized key
stores a stale order index: the single entry `Zeb Foo` ends with
`orderIndex = 1` although its position in `originalOrder` is 0, so order
indices do not match positions in `originalOrder`. -/
theorem C6_order_index_mismatch :
    (extractAllBiomarkers "Zeb Foo: 1 u\nZeb  Foo: 2 u").originalOrder = ["Zeb Foo"] ∧
    (getKey (extractAllBiomarkers "Zeb Foo: 1 u\nZeb  Foo: 2 u").biomarkers
        "Zeb Foo").map Biomarker.orderIndex = some (some 1) ∧
    List.indexOf "Zeb Foo" ["Zeb Foo"] = 0 ∧ (1 : Nat) ≠ 0 :=
  ⟨by decide, by decide, by decide, by decide⟩

/-- C6 (amended): for every report text, `originalOrder` is exactly the
list of the mapping's keys in insertion order (hence its length equals the
number of distinct accepted names) and contains no duplicates; the claimed
correspondence between stored order indices and positions in
`originalOrder` can fail when a normalized key is re-inserted (see the
counterexample). -/
theorem C6_keys_match_order (text : String) :
    (extractAllBiomarkers text).biomarkers.map Prod.fst =
      (extractAllBiomarkers text).originalOrder ∧
    (extractAllBiomarkers text).originalOrder.Nodup := by
  have hfold : ∀ (l : List MatchRes) (mp : List (String × Biomarker)),
      (l.foldl backfillStep mp).map Prod.fst = mp.map Prod.fst := by
    intro l
    induction l with
    | nil => intro mp; rfl
    | cons hd tl ih =>
        intro mp
        rw [List.foldl_cons, ih, backfillStep_keys]
  rcases extractPasses_keysMatch text.data with ⟨hkeys, hnd⟩
  constructor
  · show ((execAll true backfillRE text.data).foldl backfillStep
        (extractPasses text.data).biomarkers).map Prod.fst =
      (extractPasses text.data).originalOrder
    rw [hfold, hkeys]
  · exact hnd

/-- C7: on the input `"Glucose: 85 mg/dL"` the pipeline returns exactly the
mapping `Glucose ↦ {value 85, unit mg/dL, range 70–100 (dictionary
fallback), order index 0}` with `originalOrder = ["Glucose"]`. -/
theorem C7_glucose_extraction :
    extractAllBiomarkers "Glucose: 85 mg/dL" =
      ⟨[("Glucose", ⟨85, some "mg/dL", some ⟨70, 100⟩, some 0⟩)], ["Glucose"]⟩ := by
  decide

/-- C8: when the PDF decode step fails (either reject site), the per-file
Analysis Result has an empty biomarker mapping, the fixed non-empty error
message of the failing site, and a test date equal to the current
processing time `now` — the fixed 2023-06-15 fallback is produced only
inside `extractTestDate`, which is not reached on this path. -/
theorem C8_decode_failure_result (now fileName : String) :
    (analyzeFile now fileName .contentFailure).biomarkers = [] ∧
    (analyzeFile now fileName .contentFailure).error =
      some "Failed to parse PDF content" ∧
    (analyzeFile now fileName .contentFailure).testDate = now ∧
    (analyzeFile now fileName .dataFailure).biomarkers = [] ∧
    (analyzeFile now fileName .dataFailure).error = some "Failed to parse PDF" ∧
    (analyzeFile now fileName .dataFailure).testDate = now ∧
    0 < ("Failed to parse PDF content").length ∧
    0 < ("Failed to parse PDF").length :=
  ⟨rfl, rfl, rfl, rfl, rfl, rfl, by decide, by decide⟩

/-- C9: determinism as a two-run property — the extraction pipeline is a
pure function of the input text in this embedding (the source reads no
ambient state in `extractAllBiomarkers`/`extractTestDate`; its regex
literals are re-created per call, so no `lastIndex` state survives), hence
identical input texts yield identical biomarker mappings, order sequences
and dates. -/
theorem C9_determinism (t1 t2 : String) (h : t1 = t2) :
    extractAllBiomarkers t1 = extractAllBiomarkers t2 ∧
    extractTestDate t1.data = extractTestDate t2.data := by
  subst h
  exact ⟨rfl, rfl⟩

/-- C9 (witness): two runs on the same concrete text agree. -/
theorem C9_determinism_witness :
    extractAllBiomarkers "Glucose: 85 mg/dL" = extractAllBiomarkers "Glucose: 85 mg/dL" ∧
    extractTestDate ("Glucose: 85 mg/dL").data = extractTestDate ("Glucose: 85 mg/dL").data :=
  C9_determinism "Glucose: 85 mg/dL" "Glucose: 85 mg/dL" rfl

/-- C10 (counterexample): a candidate whose name matches a dictionary entry
(`Glucose  level`, double space, contains `glucose`) is accepted by pass 1
with the dictionary range, but its raw name differs from the stored
normalized key, so pass 2 re-processes it with the context-window search
only and overwrites the entry — the final observation has no reference
range at all instead of the dictionary default 70–100. -/
theorem C10_dictionary_candidate_loses_range :
    findMatchingKnown "Glucose  level" = some ("Glucose", ⟨ "mg/dL", ⟨70, 100⟩⟩) ∧
    getKey (extractAllBiomarkers "Glucose  level: 85 mg").biomarkers "Glucose level" =
      some ⟨85, some "mg", none, some 1⟩ ∧
    (none : Option RRange) ≠ some ⟨70, 100⟩ :=
  ⟨by decide, by decide, by decide⟩

/-- C10 (amended): pass 1 always installs the dictionary's default
reference range (and default unit when none was captured) for a
dictionary-matching candidate it accepts; the claim's "always", over the
whole pipeline, fails only because pass 2 can re-process such a candidate
whose raw name is not in normalized form (see the counterexample). -/
theorem C10_pass1_installs_dictionary_range (st : ExtractState) (c : Candidate)
    (kd : String × BiomarkerDefinition)
    (h1 : getKey st.biomarkers c.name = none)
    (h2 : findMatchingKnown c.name = some kd) :
    getKey (pass1Step st c).biomarkers (normalizeName c.name) =
      some ⟨c.value, some (unitOrDefault c.unit kd.2.units), some kd.2.range,
        some st.originalOrder.length⟩ := by
  unfold pass1Step
  rw [h1, h2]
  simp only [Option.isSome_none, Bool.false_eq_true, if_false]
  exact getKey_setKey_self _ _ _

/-- C10 (witness): pass 1 on a fresh state stores the Glucose dictionary
range. -/
theorem C10_pass1_witness :
    getKey (pass1Step ⟨[], []⟩ ⟨"Glucose", 85, some "mg/dL", 0⟩).biomarkers
        (normalizeName "Glucose") =
      some ⟨85, some (unitOrDefault (some "mg/dL") "mg/dL"), some ⟨70, 100⟩, some 0⟩ :=
  C10_pass1_installs_dictionary_range ⟨[], []⟩ ⟨"Glucose", 85, some "mg/dL", 0⟩
    ("Glucose", ⟨ "mg/dL", ⟨70, 100⟩⟩) (by decide) (by decide)
